import Mathlib

/-!
Shallow embedding of the AI Token Calculator API core
(tokenizer strategies, tokenizer dispatcher, pricing table, estimation
engine, pricing loader, and the application refresh wiring).

Python floats are modelled as exact rationals (ℚ); Python ints as ℤ or ℕ
(ℕ where a pydantic validator guarantees non-negativity); Python dicts
as insertion-ordered association lists; raised exceptions as
`Except String`.  The exact tiktoken encoder is modelled as an abstract
parameter `enc : String → String → ℕ` (encoding name and text to a token
count), since its vocabulary is external data.
-/

namespace TokenCalc

/-- The abstract tiktoken encoder: encoding name and text to token count. -/
abbrev Enc := String → String → ℕ

/-! ### Tokenizer strategies (src/app/tokenizers) -/

/-- A single quote character, used in warning strings. -/
def squote : String := String.singleton (Char.ofNat 39)

/-- Tokenizer strategy variants created by the factory
(`OpenAITokenizer`, `AnthropicTokenizer`, `LlamaTokenizer`). -/
inductive Strategy where
  | openai (encoding_name : String)
  | anthropic
  | llama
deriving DecidableEq, Repr

/-- `OpenAITokenizer.__init__`: the encoding map sends `o200k_base` and
`cl100k_base` to themselves and every other encoding name to `cl100k_base`. -/
def encoding_for (encoding_name : String) : String :=
  if encoding_name = "o200k_base" || encoding_name = "cl100k_base" then
    encoding_name
  else "cl100k_base"

/-- `OpenAITokenizer.count_tokens`: empty text gives `(0, False)`;
otherwise the tiktoken count with the exact flag. -/
def openai_count_tokens (enc : Enc) (encoding_name text : String) : ℕ × Bool :=
  if text = "" then (0, false)
  else (enc (encoding_for encoding_name) text, false)

/-- `LlamaTokenizer.count_tokens`: characters-per-token ratio 3.5;
empty text gives `(0, True)`, otherwise
`max(1, int(char_count / 3.5))` with the approximate flag. -/
def llama_count_tokens (text : String) : ℕ × Bool :=
  if text = "" then (0, true)
  else (max 1 ⌊(text.length : ℚ) / (35 / 10)⌋₊, true)

/-- Modelled from the spec: the file `app/tokenizers/anthropic_approx.py`
defining `AnthropicTokenizer` is absent from the sources; per the spec,
approximate strategies derive the estimate from character count using a
fixed family-specific characters-per-token ratio, return `(0, true)` on
empty text and otherwise `max(1, floor(charCount / ratio))` with the
approximate flag.  The fixed ratio is taken as a parameter. -/
def anthropic_count_tokens (chars_per_token : ℚ) (text : String) : ℕ × Bool :=
  if text = "" then (0, true)
  else (max 1 ⌊(text.length : ℚ) / chars_per_token⌋₊, true)

/-! ### Tokenizer dispatcher (src/app/tokenizers/__init__.py) -/

/-- Python `str.startswith`, embedded as a code-point prefix test. -/
def starts_with (s pre : String) : Bool := pre.data.isPrefixOf s.data

/-- Python `str.endswith`, embedded as a code-point suffix test. -/
def ends_with (s suf : String) : Bool := suf.data.isSuffixOf s.data

/-- `TokenizerFactory._create_tokenizer`: resolution policy, first match
wins, with a silent fallback to the `cl100k_base` exact strategy. -/
def create_tokenizer (tokenizer_name : String) : Strategy :=
  if starts_with tokenizer_name "o" && ends_with tokenizer_name "_base" then
    .openai tokenizer_name
  else if tokenizer_name = "cl100k_base" then
    .openai tokenizer_name
  else if tokenizer_name = "anthropic_approx_bpe" then
    .anthropic
  else if tokenizer_name = "llama_approx_bpe" then
    .llama
  else
    .openai "cl100k_base"

/-- Dispatch of `count_tokens` on a resolved strategy.  `acpt` is the
Anthropic strategy's fixed characters-per-token ratio (see
`anthropic_count_tokens`). -/
def strategy_count (enc : Enc) (acpt : ℚ) : Strategy → String → ℕ × Bool
  | .openai en, text => openai_count_tokens enc en text
  | .anthropic, text => anthropic_count_tokens acpt text
  | .llama, text => llama_count_tokens text

/-- `TokenizerFactory.count_tokens`: resolve the name, then count.
(The instance cache is pure memoization and does not affect counts.) -/
def factory_count_tokens (enc : Enc) (acpt : ℚ) (text tokenizer_name : String) :
    ℕ × Bool :=
  strategy_count enc acpt (create_tokenizer tokenizer_name) text

/-! ### Data model (src/app/schemas.py, src/app/pricing_loader.py) -/

/-- `PricingConfig` (validated pricing entry for one model). -/
structure PricingConfig where
  vendor : String
  context : Option ℤ
  input_per_1k : ℚ
  output_per_1k : Option ℚ
  tokenizer : String
  kind : String
deriving DecidableEq, Repr

/-- The in-memory pricing table: model identifier to entry, in insertion
order (Python dicts preserve insertion order). -/
abbrev PricingTable := List (String × PricingConfig)

/-- `dict.get` on the pricing table. -/
def table_get (table : PricingTable) (model : String) : Option PricingConfig :=
  (table.find? (fun p => p.1 = model)).map (·.2)

/-- `RAGConfig` request sub-object.  No validator constrains these
fields; defaults are 0. -/
structure RAGConfig where
  embedding_tokens : ℤ := 0
  num_vectors_read : ℤ := 0
  vector_read_fee_per_1k : ℚ := 0
deriving DecidableEq, Repr

/-- `EstimateRequest` after pydantic validation: the
`expected_output_tokens` validator guarantees non-negativity, hence ℕ. -/
structure EstimateRequest where
  model : String
  system : Option String := none
  user : Option String := none
  tools_json : Option String := none
  expected_output_tokens : ℕ
  rag : Option RAGConfig := none
deriving DecidableEq, Repr

/-- `TokenizerInfo` response sub-object. -/
structure TokenizerInfo where
  name : String
  approx : Bool
deriving DecidableEq, Repr

/-- `CostBreakdown` response sub-object. -/
structure CostBreakdown where
  model_input_cost : ℚ
  model_output_cost : ℚ
  embedding_cost : ℚ
  vector_io_cost : ℚ
deriving DecidableEq, Repr

/-- `EstimateResponse`. -/
structure EstimateResponse where
  model : String
  tokenizer : TokenizerInfo
  input_tokens : ℕ
  output_tokens : ℕ
  context_limit : Option ℤ
  context_utilization_pct : Option ℚ
  cost : ℚ
  breakdown : CostBreakdown
  warnings : List String
deriving DecidableEq, Repr

/-- `BatchEstimateResponse`. -/
structure BatchEstimateResponse where
  results : List EstimateResponse
  total_cost : ℚ
  total_input_tokens : ℕ
  total_output_tokens : ℕ
deriving DecidableEq, Repr

/-! ### Warning string formatting -/

/-- Round a rational to the nearest integer, ties to even
(the rounding used when Python formats a float with `.1f`). -/
def round_half_even (x : ℚ) : ℤ :=
  let f := ⌊x⌋
  let r := x - f
  if r > 1 / 2 then f + 1
  else if r < 1 / 2 then f
  else if f % 2 = 0 then f else f + 1

/-- Format a rational with one decimal digit, as Python `format(x, ".1f")`. -/
def format_one_decimal (q : ℚ) : String :=
  let n := round_half_even (q * 10)
  let a := n.natAbs
  (if n < 0 then "-" else "") ++ toString (a / 10) ++ "." ++ toString (a % 10)

/-- Insert thousands separators into a reversed digit list. -/
def group_thousands : List Char → List Char
  | c1 :: c2 :: c3 :: c4 :: rest => c1 :: c2 :: c3 :: ',' :: group_thousands (c4 :: rest)
  | l => l

/-- Format a natural number with thousands separators, as Python `format(n, ",")`. -/
def format_commas_nat (n : ℕ) : String :=
  String.mk ((group_thousands (toString n).data.reverse).reverse)

/-- Format an integer with thousands separators. -/
def format_commas (i : ℤ) : String :=
  if i < 0 then "-" ++ format_commas_nat i.natAbs else format_commas_nat i.toNat

/-- The high-context-utilization warning string. -/
def high_context_warning (pct : ℚ) (limit : ℤ) : String :=
  "High context utilization: " ++
    (format_one_decimal pct ++ ("% of " ++ (format_commas limit ++ " tokens")))

/-- The tokenizer-approximation warning string. -/
def approx_warning (tokenizer_name : String) : String :=
  "Tokenizer " ++
    (squote ++ (tokenizer_name ++ (squote ++
      " uses approximation - actual token counts may vary")))

/-! ### Estimation engine (src/app/services/estimator.py) -/

/-- One optional prompt field of `_count_input_tokens`: Python truthiness
skips the field when it is `None` or empty. -/
def count_field (enc : Enc) (acpt : ℚ) (field : Option String)
    (tokenizer_name : String) : ℕ :=
  match field with
  | none => 0
  | some s => if s = "" then 0 else (factory_count_tokens enc acpt s tokenizer_name).1

/-- `EstimationService._count_input_tokens`: system + user + tools_json. -/
def count_input_tokens (enc : Enc) (acpt : ℚ) (req : EstimateRequest)
    (tokenizer_name : String) : ℕ :=
  count_field enc acpt req.system tokenizer_name +
    count_field enc acpt req.user tokenizer_name +
    count_field enc acpt req.tools_json tokenizer_name

/-- The embedding-entry search of `_calculate_costs`: first entry in table
iteration order whose kind is "embedding" and whose vendor matches. -/
def find_embedding (table : PricingTable) (vendor : String) : Option PricingConfig :=
  (table.find? (fun p => p.2.kind = "embedding" && p.2.vendor = vendor)).map (·.2)

/-- `EstimationService._calculate_costs`.  Python truthiness makes the
output-rate branch treat both `None` and `0.0` as "no output rate". -/
def calculate_costs (table : PricingTable) (input_tokens output_tokens : ℕ)
    (cfg : PricingConfig) (rag : Option RAGConfig) : CostBreakdown :=
  let model_input_cost := ((input_tokens : ℚ) / 1000) * cfg.input_per_1k
  let model_output_cost :=
    match cfg.output_per_1k with
    | none => 0
    | some r => if r = 0 then 0 else ((output_tokens : ℚ) / 1000) * r
  let embedding_cost :=
    match rag with
    | none => 0
    | some rc =>
      if 0 < rc.embedding_tokens then
        match find_embedding table cfg.vendor with
        | some em => ((rc.embedding_tokens : ℚ) / 1000) * em.input_per_1k
        | none => 0
      else 0
  let vector_io_cost :=
    match rag with
    | none => 0
    | some rc =>
      if 0 < rc.num_vectors_read then
        (rc.num_vectors_read : ℚ) * rc.vector_read_fee_per_1k
      else 0
  ⟨model_input_cost, model_output_cost, embedding_cost, vector_io_cost⟩

/-- Python truthiness of the optional context limit: `None` and `0` are
falsy, every other integer is truthy. -/
def context_truthy : Option ℤ → Bool
  | none => false
  | some n => n != 0

/-- Context utilization percentage. -/
def utilization_pct (input_tokens output_tokens : ℕ) (limit : ℤ) : ℚ :=
  (((input_tokens : ℚ) + (output_tokens : ℚ)) / (limit : ℚ)) * 100

/-- `EstimationService._generate_warnings`: high-context warning first
(when the limit is truthy and utilization ≥ 90), then the approximation
warning (probed by counting the text "test"). -/
def generate_warnings (enc : Enc) (acpt : ℚ) (input_tokens output_tokens : ℕ)
    (context_limit : Option ℤ) (tokenizer_name : String) : List String :=
  let ws1 :=
    match context_limit with
    | none => []
    | some limit =>
      if limit ≠ 0 then
        let pct := utilization_pct input_tokens output_tokens limit
        if 90 ≤ pct then [high_context_warning pct limit] else []
      else []
  let ws2 :=
    if (factory_count_tokens enc acpt "test" tokenizer_name).2 then
      [approx_warning tokenizer_name]
    else []
  ws1 ++ ws2

/-- `EstimationService.estimate`: raises `ValueError("Unknown model: …")`
when the model is absent from the pricing table, otherwise assembles the
full response.  `raise` is modelled as `Except.error`. -/
def estimate (enc : Enc) (acpt : ℚ) (table : PricingTable)
    (req : EstimateRequest) : Except String EstimateResponse :=
  match table_get table req.model with
  | none => .error ("Unknown model: " ++ req.model)
  | some cfg =>
    let input_tokens := count_input_tokens enc acpt req cfg.tokenizer
    let breakdown :=
      calculate_costs table input_tokens req.expected_output_tokens cfg req.rag
    let pct : Option ℚ :=
      match cfg.context with
      | none => none
      | some limit =>
        if limit ≠ 0 then
          some (utilization_pct input_tokens req.expected_output_tokens limit)
        else none
    let warnings :=
      generate_warnings enc acpt input_tokens req.expected_output_tokens
        cfg.context cfg.tokenizer
    let is_approx := (factory_count_tokens enc acpt "test" cfg.tokenizer).2
    .ok
      { model := req.model
        tokenizer := ⟨cfg.tokenizer, is_approx⟩
        input_tokens := input_tokens
        output_tokens := req.expected_output_tokens
        context_limit := cfg.context
        context_utilization_pct := pct
        cost := breakdown.model_input_cost + breakdown.model_output_cost +
          breakdown.embedding_cost + breakdown.vector_io_cost
        breakdown := breakdown
        warnings := warnings }

/-- The loop body of `estimate_batch` (src/app/routers/estimate.py):
estimate every request in order; the first failure aborts the whole
batch with no partial result list. -/
def estimate_all (enc : Enc) (acpt : ℚ) (table : PricingTable) :
    List EstimateRequest → Except String (List EstimateResponse)
  | [] => .ok []
  | r :: rs =>
    match estimate enc acpt table r with
    | .error e => .error e
    | .ok x =>
      match estimate_all enc acpt table rs with
      | .error e => .error e
      | .ok xs => .ok (x :: xs)

/-- `estimate_batch`: per-request results in input order plus aggregated
totals. -/
def estimate_batch (enc : Enc) (acpt : ℚ) (table : PricingTable)
    (reqs : List EstimateRequest) : Except String BatchEstimateResponse :=
  match estimate_all enc acpt table reqs with
  | .error e => .error e
  | .ok results =>
    .ok ⟨results, (results.map (·.cost)).sum,
      (results.map (·.input_tokens)).sum, (results.map (·.output_tokens)).sum⟩

/-! ### Pricing loader (src/app/pricing_loader.py) -/

/-- A raw pricing-source record before validation: every field may be
missing. -/
structure RawPricingRecord where
  vendor : Option String := none
  context : Option ℤ := none
  input_per_1k : Option ℚ := none
  output_per_1k : Option ℚ := none
  tokenizer : Option String := none
  kind : Option String := none
deriving DecidableEq, Repr

/-- Pydantic validation of one record (`PricingConfig(**config_data)`):
`vendor`, `input_per_1k`, `tokenizer`, `kind` are required; rates must be
non-negative; `context` is unconstrained. -/
def validate_record (r : RawPricingRecord) : Except String PricingConfig :=
  match r.vendor, r.input_per_1k, r.tokenizer, r.kind with
  | some v, some ir, some tk, some kd =>
    if ir < 0 then .error "Cost must be non-negative"
    else
      match r.output_per_1k with
      | some o =>
        if o < 0 then .error "Cost must be non-negative"
        else .ok ⟨v, r.context, ir, some o, tk, kd⟩
      | none => .ok ⟨v, r.context, ir, none, tk, kd⟩
  | none, _, _, _ => .error "Field required: vendor"
  | _, none, _, _ => .error "Field required: input_per_1k"
  | _, _, none, _ => .error "Field required: tokenizer"
  | _, _, _, none => .error "Field required: kind"

/-- `PricingLoader._validate_and_store`: validate every record in order;
the first invalid record raises, naming the invalid model identifier;
otherwise the validated table is produced. -/
def validate_and_store : List (String × RawPricingRecord) →
    Except String PricingTable
  | [] => .ok []
  | (model_name, rec) :: rest =>
    match validate_record rec with
    | .error e => .error ("Invalid pricing config for " ++ model_name ++ ": " ++ e)
    | .ok cfg =>
      match validate_and_store rest with
      | .error e => .error e
      | .ok t => .ok ((model_name, cfg) :: t)

/-- The effect of one `load_pricing` call on the loader's stored table:
on success the table is replaced by the new one, on failure the raise
propagates and `self.pricing_data` keeps its previous value. -/
def load_pricing_step (old : PricingTable)
    (data : List (String × RawPricingRecord)) : PricingTable × Option String :=
  match validate_and_store data with
  | .ok t => (t, none)
  | .error e => (old, some e)

/-! ### Application wiring (src/app/main.py, src/app/routers/admin.py) -/

/-- The two table references held by the application: the loader's
`pricing_data` attribute and the dict object captured by
`EstimationService.__init__` at startup. -/
structure AppState where
  loader_pricing_data : PricingTable
  service_pricing_configs : PricingTable
deriving DecidableEq, Repr

/-- `lifespan` startup: the service is constructed from the loader's
freshly loaded table, so both references denote the same table. -/
def startup (t : PricingTable) : AppState := ⟨t, t⟩

/-- `refresh_pricing` (admin router): reruns `load_pricing` on the loader.
`_validate_and_store` rebinds `self.pricing_data` to a newly built dict;
the `EstimationService` instance keeps the dict object it captured at
startup, so its `pricing_configs` reference is not updated. -/
def refresh_pricing (s : AppState) (data : List (String × RawPricingRecord)) :
    AppState :=
  match validate_and_store data with
  | .ok t => ⟨t, s.service_pricing_configs⟩
  | .error _ => s

/-- An estimate served after startup/refresh goes through the service's
captured table. -/
def service_estimate (enc : Enc) (acpt : ℚ) (s : AppState)
    (req : EstimateRequest) : Except String EstimateResponse :=
  estimate enc acpt s.service_pricing_configs req

/-! ### Concrete fixtures used by witnesses -/

/-- A concrete encoder standing in for tiktoken in witnesses:
one token per character. -/
def enc_len : Enc := fun _ s => s.length

/-! ### Helper lemmas -/

lemma string_data_append (s t : String) : (s ++ t).data = s.data ++ t.data := rfl

lemma string_append_head (s t : String) (c : Char) (h : s.data.head? = some c) :
    (s ++ t).data.head? = some c := by
  rw [string_data_append, List.head?_append, h]
  rfl

lemma high_warning_head (p : ℚ) (l : ℤ) :
    (high_context_warning p l).data.head? = some 'H' :=
  string_append_head _ _ _ (by decide)

lemma approx_warning_head (n : String) :
    (approx_warning n).data.head? = some 'T' :=
  string_append_head _ _ _ (by decide)

lemma high_ne_approx (p : ℚ) (l : ℤ) (n : String) :
    high_context_warning p l ≠ approx_warning n := by
  intro h
  have hH := high_warning_head p l
  rw [h, approx_warning_head] at hH
  exact absurd hH (by decide)

lemma estimate_unknown (enc : Enc) (acpt : ℚ) (table : PricingTable)
    (req : EstimateRequest) (h : table_get table req.model = none) :
    estimate enc acpt table req = .error ("Unknown model: " ++ req.model) := by
  simp [estimate, h]

lemma estimate_all_error (enc : Enc) (acpt : ℚ) (table : PricingTable) :
    ∀ reqs : List EstimateRequest,
      (∃ r ∈ reqs, table_get table r.model = none) →
      ∃ e, estimate_all enc acpt table reqs = .error e := by
  intro reqs
  induction reqs with
  | nil => rintro ⟨r, hr, -⟩; cases hr
  | cons a rs ih =>
    rintro ⟨r, hr, hnone⟩
    rcases List.mem_cons.mp hr with heq | htail
    · subst heq
      exact ⟨"Unknown model: " ++ r.model,
        by simp [estimate_all, estimate_unknown enc acpt table r hnone]⟩
    · cases hest : estimate enc acpt table a with
      | error e => exact ⟨e, by simp [estimate_all, hest]⟩
      | ok x =>
        obtain ⟨e, he⟩ := ih ⟨r, htail, hnone⟩
        exact ⟨e, by simp [estimate_all, hest, he]⟩

/-! ### Claim theorems -/

/-- Claim C1: `estimate` fails with the `Unknown model` error exactly when
the request's model is absent from the pricing table, never yielding a
result in that case, and in the batch operation any request whose model
is absent from the table aborts the entire batch with an error (no
partial list of results). -/
theorem claim_c1 (enc : Enc) (acpt : ℚ) (table : PricingTable)
    (req : EstimateRequest) (reqs : List EstimateRequest) :
    (table_get table req.model = none ↔
      estimate enc acpt table req = .error ("Unknown model: " ++ req.model)) ∧
    (table_get table req.model = none →
      ∀ resp, estimate enc acpt table req ≠ .ok resp) ∧
    ((∃ r ∈ reqs, table_get table r.model = none) →
      ∃ e, estimate_batch enc acpt table reqs = .error e) := by
  refine ⟨⟨fun h => estimate_unknown enc acpt table req h, fun h => ?_⟩,
    fun h resp hok => ?_, fun h => ?_⟩
  · cases htg : table_get table req.model with
    | none => rfl
    | some cfg => simp [estimate, htg] at h
  · rw [estimate_unknown enc acpt table req h] at hok
    exact Except.noConfusion hok
  · obtain ⟨e, he⟩ := estimate_all_error enc acpt table reqs h
    exact ⟨e, by simp [estimate_batch, he]⟩

/-- Witness for C1: with a one-entry table holding only model `m1`, a
request for `m2` yields the `Unknown model` error and poisons a batch
containing an otherwise valid request. -/
theorem claim_c1_witness :
    estimate enc_len 4 [("m1", ⟨"openai", none, 0, none, "cl100k_base", "chat"⟩)]
        ⟨"m2", none, none, none, 0, none⟩ = .error "Unknown model: m2" ∧
    ∃ e, estimate_batch enc_len 4
        [("m1", ⟨"openai", none, 0, none, "cl100k_base", "chat"⟩)]
        [⟨"m1", none, none, none, 0, none⟩, ⟨"m2", none, none, none, 0, none⟩] =
      .error e := by
  have h := claim_c1 enc_len 4
    [("m1", ⟨"openai", none, 0, none, "cl100k_base", "chat"⟩)]
    ⟨"m2", none, none, none, 0, none⟩
    [⟨"m1", none, none, none, 0, none⟩, ⟨"m2", none, none, none, 0, none⟩]
  refine ⟨h.1.mp (by simp [table_get, List.find?]), h.2.2 ?_⟩
  exact ⟨⟨"m2", none, none, none, 0, none⟩, by simp, by simp [table_get, List.find?]⟩

lemma llama_floor (c : ℕ) : ⌊(c : ℚ) / (35 / 10)⌋₊ = 2 * c / 7 := by
  have h : (c : ℚ) / (35 / 10) = ((2 * c : ℕ) : ℚ) / ((7 : ℕ) : ℚ) := by
    push_cast
    ring
  rw [h, Nat.floor_div_nat, Nat.floor_natCast]

/-- Claim C4: every approximate tokenizer returns `(0, true)` on empty
text and `(max 1 (floor (charCount / ratio)), true)` on non-empty text
for its family's fixed characters-per-token ratio (3.5 for the Llama
family; the Anthropic strategy is modelled from the spec with its ratio
as a parameter), so non-empty text never yields zero tokens and the
approximation flag is fixed per family; exact strategies return
`(0, false)` on empty text. -/
theorem claim_c4 :
    llama_count_tokens "" = (0, true) ∧
    (∀ t : String, t ≠ "" →
      llama_count_tokens t = (max 1 (2 * t.length / 7), true)) ∧
    (∀ t : String, t ≠ "" → 1 ≤ (llama_count_tokens t).1) ∧
    (∀ t : String, (llama_count_tokens t).2 = true) ∧
    (∀ cpt : ℚ, 0 < cpt →
      anthropic_count_tokens cpt "" = (0, true) ∧
      (∀ t : String, t ≠ "" →
        anthropic_count_tokens cpt t = (max 1 ⌊(t.length : ℚ) / cpt⌋₊, true) ∧
        1 ≤ (anthropic_count_tokens cpt t).1) ∧
      (∀ t : String, (anthropic_count_tokens cpt t).2 = true)) ∧
    (∀ (enc : Enc) (en : String), openai_count_tokens enc en "" = (0, false)) := by
  refine ⟨by simp [llama_count_tokens], fun t ht => ?_, fun t ht => ?_, fun t => ?_,
    fun cpt hcpt => ⟨by simp [anthropic_count_tokens], fun t ht => ⟨?_, ?_⟩, fun t => ?_⟩,
    fun enc en => by simp [openai_count_tokens]⟩
  · simp [llama_count_tokens, ht, llama_floor]
  · simp [llama_count_tokens, ht]
  · by_cases ht : t = "" <;> simp [llama_count_tokens, ht]
  · simp [anthropic_count_tokens, ht]
  · simp [anthropic_count_tokens, ht]
  · by_cases ht : t = "" <;> simp [anthropic_count_tokens, ht]

/-- Witness for C4: concrete evaluations of the tokenizer strategies. -/
theorem claim_c4_witness :
    llama_count_tokens "abcdefg" = (2, true) ∧
    1 ≤ (llama_count_tokens "abcdefg").1 ∧
    anthropic_count_tokens 4 "" = (0, true) ∧
    openai_count_tokens enc_len "cl100k_base" "" = (0, false) := by
  have h := claim_c4
  refine ⟨?_, h.2.2.1 "abcdefg" (by decide),
    (h.2.2.2.2.1 4 (by norm_num)).1, h.2.2.2.2.2 enc_len "cl100k_base"⟩
  rw [h.2.1 "abcdefg" (by decide)]
  decide

/-- Claim C9: a tokenizer name matching neither a known exact-vocabulary
identifier nor a recognized approximate-family identifier resolves,
silently and with no failure, to the default `cl100k_base` exact
strategy, so its counts coincide with the default strategy's counts on
every text. -/
theorem claim_c9 (name : String)
    (h1 : ¬(starts_with name "o" && ends_with name "_base") = true)
    (h2 : name ≠ "cl100k_base") (h3 : name ≠ "anthropic_approx_bpe")
    (h4 : name ≠ "llama_approx_bpe") :
    create_tokenizer name = .openai "cl100k_base" ∧
    ∀ (enc : Enc) (acpt : ℚ) (text : String),
      factory_count_tokens enc acpt text name =
        factory_count_tokens enc acpt text "cl100k_base" := by
  have hct : create_tokenizer name = .openai "cl100k_base" := by
    simp [create_tokenizer, h1, h2, h3, h4]
  have hdefault : create_tokenizer "cl100k_base" = .openai "cl100k_base" := by decide
  exact ⟨hct, fun enc acpt text => by
    rw [factory_count_tokens, factory_count_tokens, hct, hdefault]⟩

/-- Witness for C9: the unrecognized name `gpt2` resolves to the default
exact strategy and counts like it. -/
theorem claim_c9_witness :
    create_tokenizer "gpt2" = .openai "cl100k_base" ∧
    factory_count_tokens enc_len 4 "hello" "gpt2" =
      factory_count_tokens enc_len 4 "hello" "cl100k_base" := by
  have h := claim_c9 "gpt2" (by decide) (by decide) (by decide) (by decide)
  exact ⟨h.1, h.2 enc_len 4 "hello"⟩

/-- A minimal valid pricing entry used in witnesses. -/
def cfg0 : PricingConfig := ⟨"openai", none, 0, none, "cl100k_base", "chat"⟩

/-- A minimal valid request used in witnesses. -/
def req0 : EstimateRequest := ⟨"m", none, none, none, 0, none⟩

/-- The response `estimate` produces for `req0` against `[("m", cfg0)]`. -/
def resp0 : EstimateResponse :=
  ⟨"m", ⟨"cl100k_base", false⟩, 0, 0, none, none, 0, ⟨0, 0, 0, 0⟩, []⟩

lemma create_cl100k : create_tokenizer "cl100k_base" = .openai "cl100k_base" := by
  decide

lemma estimate0 : estimate enc_len 4 [("m", cfg0)] req0 = .ok resp0 := by
  simp [estimate, table_get, List.find?, cfg0, req0, resp0, count_input_tokens,
    count_field, calculate_costs, find_embedding, generate_warnings,
    factory_count_tokens, create_cl100k, strategy_count, openai_count_tokens,
    encoding_for]

/-- Claim C2: for a request whose model is in the table, model input cost
is `(inputTokens/1000) ×` the input rate, model output cost is
`(outputTokens/1000) ×` the output rate (0 when the entry has none),
vector I/O cost is `vectorsRead × perVectorFee` as a flat per-unit fee
when a RAG sub-request with positive vectors-read count is present (else
0), total cost is the sum of the four components, and the spec's numeric
example (rates 0.15/0.60, 100 input and 250 output tokens, no RAG) gives
costs 0.015, 0.15 and total 0.165. -/
theorem claim_c2 (enc : Enc) (acpt : ℚ) (table : PricingTable) (i o : ℕ)
    (cfg : PricingConfig) (rag : Option RAGConfig) (req : EstimateRequest)
    (resp : EstimateResponse) :
    ((calculate_costs table i o cfg rag).model_input_cost =
      ((i : ℚ) / 1000) * cfg.input_per_1k) ∧
    ((calculate_costs table i o cfg rag).model_output_cost =
      (match cfg.output_per_1k with
        | some r => ((o : ℚ) / 1000) * r
        | none => 0)) ∧
    ((calculate_costs table i o cfg rag).vector_io_cost =
      (match rag with
        | some rc =>
          if 0 < rc.num_vectors_read then
            (rc.num_vectors_read : ℚ) * rc.vector_read_fee_per_1k
          else 0
        | none => 0)) ∧
    (estimate enc acpt table req = .ok resp →
      resp.cost = resp.breakdown.model_input_cost + resp.breakdown.model_output_cost +
        resp.breakdown.embedding_cost + resp.breakdown.vector_io_cost) ∧
    (calculate_costs [] 100 250
        ⟨"openai", some 128000, 15/100, some (60/100), "o200k_base", "chat"⟩ none =
      ⟨15/1000, 15/100, 0, 0⟩) ∧
    ((calculate_costs [] 100 250
        ⟨"openai", some 128000, 15/100, some (60/100), "o200k_base", "chat"⟩
        none).model_input_cost +
      (calculate_costs [] 100 250
        ⟨"openai", some 128000, 15/100, some (60/100), "o200k_base", "chat"⟩
        none).model_output_cost +
      (calculate_costs [] 100 250
        ⟨"openai", some 128000, 15/100, some (60/100), "o200k_base", "chat"⟩
        none).embedding_cost +
      (calculate_costs [] 100 250
        ⟨"openai", some 128000, 15/100, some (60/100), "o200k_base", "chat"⟩
        none).vector_io_cost = 165/1000) := by
  refine ⟨rfl, ?_, ?_, fun h => ?_, ?_, ?_⟩
  · cases ho : cfg.output_per_1k with
    | none => simp [calculate_costs, ho]
    | some r =>
      by_cases hr : r = 0
      · simp [calculate_costs, ho, hr]
      · simp [calculate_costs, ho, hr]
  · cases rag with
    | none => rfl
    | some rc => rfl
  · cases htg : table_get table req.model with
    | none =>
      rw [estimate_unknown enc acpt table req htg] at h
      exact Except.noConfusion h
    | some c =>
      simp only [estimate, htg] at h
      injection h with h
      rw [← h]
  · simp [calculate_costs, find_embedding]
    norm_num
  · simp [calculate_costs, find_embedding]
    norm_num

/-- Witness for C2: the total-cost equation instantiated on a concrete
successful estimate. -/
theorem claim_c2_witness :
    resp0.cost = resp0.breakdown.model_input_cost +
      resp0.breakdown.model_output_cost + resp0.breakdown.embedding_cost +
      resp0.breakdown.vector_io_cost :=
  (claim_c2 enc_len 4 [("m", cfg0)] 0 0 cfg0 none req0 resp0).2.2.2.1 estimate0

lemma generate_warnings_split (enc : Enc) (acpt : ℚ) (i o : ℕ) (limit : ℤ)
    (name : String) :
    generate_warnings enc acpt i o (some limit) name =
      (if limit ≠ 0 ∧ 90 ≤ utilization_pct i o limit then
        [high_context_warning (utilization_pct i o limit) limit] else []) ++
      (if (factory_count_tokens enc acpt "test" name).2 then
        [approx_warning name] else []) := by
  by_cases h1 : limit = 0 <;> by_cases h2 : 90 ≤ utilization_pct i o limit <;>
    simp [generate_warnings, h1, h2]

/-- Claim C5: the warnings list contains the high-context warning iff the
entry's context limit is present (truthy) and utilization is at least
90%, contains the approximation warning iff the resolved tokenizer
reports approximate, in exactly that order; when the entry carries no
truthy context limit (absent or 0) no high-context warning can appear
and only the approximation warning remains possible; at 950/1000 tokens
the high-context warning reads `High context utilization: 95.0% of
1,000 tokens` and at 899/1000 tokens it is absent. -/
theorem claim_c5 (enc : Enc) (acpt : ℚ) (i o : ℕ) (limit : ℤ) (name : String)
    (table : PricingTable) (req : EstimateRequest) (resp : EstimateResponse) :
    (limit ≠ 0 →
      (high_context_warning (utilization_pct i o limit) limit ∈
          generate_warnings enc acpt i o (some limit) name ↔
        90 ≤ utilization_pct i o limit)) ∧
    (approx_warning name ∈ generate_warnings enc acpt i o (some limit) name ↔
      (factory_count_tokens enc acpt "test" name).2 = true) ∧
    (generate_warnings enc acpt i o (some limit) name =
      (if limit ≠ 0 ∧ 90 ≤ utilization_pct i o limit then
        [high_context_warning (utilization_pct i o limit) limit] else []) ++
      (if (factory_count_tokens enc acpt "test" name).2 then
        [approx_warning name] else [])) ∧
    (estimate enc acpt table req = .ok resp →
      resp.warnings = generate_warnings enc acpt resp.input_tokens
        resp.output_tokens resp.context_limit resp.tokenizer.name) ∧
    (generate_warnings enc acpt 700 250 (some 1000) "cl100k_base" =
      ["High context utilization: 95.0% of 1,000 tokens"]) ∧
    (generate_warnings enc acpt 649 250 (some 1000) "cl100k_base" = []) ∧
    (generate_warnings enc acpt i o none name =
      (if (factory_count_tokens enc acpt "test" name).2 then
        [approx_warning name] else [])) ∧
    (approx_warning name ∈ generate_warnings enc acpt i o none name ↔
      (factory_count_tokens enc acpt "test" name).2 = true) ∧
    (∀ ctx : Option ℤ, context_truthy ctx = false →
      ∀ p l, high_context_warning p l ∉ generate_warnings enc acpt i o ctx name) := by
  refine ⟨fun hlim => ?_, ?_, generate_warnings_split enc acpt i o limit name,
    fun h => ?_, ?_, ?_, ?_, ?_, fun ctx hctx p l hmem => ?_⟩
  · rw [generate_warnings_split]
    by_cases h2 : 90 ≤ utilization_pct i o limit
    · simp [h2, hlim]
    · by_cases hf : (factory_count_tokens enc acpt "test" name).2 <;>
        simp [h2, hf, high_ne_approx (utilization_pct i o limit) limit name]
  · rw [generate_warnings_split]
    by_cases hf : (factory_count_tokens enc acpt "test" name).2
    · simp [hf]
    · have hne : approx_warning name ≠
          high_context_warning (utilization_pct i o limit) limit :=
        fun h => high_ne_approx (utilization_pct i o limit) limit name h.symm
      by_cases hc : limit ≠ 0 ∧ 90 ≤ utilization_pct i o limit <;>
        simp [hf, hc, hne]
  · cases htg : table_get table req.model with
    | none =>
      rw [estimate_unknown enc acpt table req htg] at h
      exact Except.noConfusion h
    | some c =>
      simp only [estimate, htg] at h
      injection h with h
      rw [← h]
  · have hpct : utilization_pct 700 250 1000 = 95 := by
      rw [utilization_pct]
      norm_num
    have hs : high_context_warning 95 1000 =
        "High context utilization: 95.0% of 1,000 tokens" := by
      have h1 : format_one_decimal 95 = "95.0" := by
        simp [format_one_decimal, round_half_even]
        norm_num
        decide
      have h2 : format_commas 1000 = "1,000" := by
        simp [format_commas, format_commas_nat, group_thousands]
        decide
      rw [high_context_warning, h1, h2]
      decide
    rw [generate_warnings_split, hpct]
    simp only [factory_count_tokens, create_cl100k, strategy_count,
      openai_count_tokens]
    rw [if_pos (by norm_num), if_neg (by simp)]
    simp [hs]
  · rw [generate_warnings_split]
    have hpct : utilization_pct 649 250 1000 = 899/10 := by
      rw [utilization_pct]
      norm_num
    simp only [factory_count_tokens, create_cl100k, strategy_count,
      openai_count_tokens]
    rw [if_neg (by rw [hpct]; norm_num), if_neg (by simp)]
    rfl
  · by_cases hf : (factory_count_tokens enc acpt "test" name).2 <;>
      simp [generate_warnings, hf]
  · by_cases hf : (factory_count_tokens enc acpt "test" name).2 <;>
      simp [generate_warnings, hf]
  · cases ctx with
    | none =>
      revert hmem
      by_cases hf : (factory_count_tokens enc acpt "test" name).2 <;>
        simp [generate_warnings, hf]
      exact fun hmem => high_ne_approx p l name hmem
    | some n =>
      have hn : n = 0 := by simpa [context_truthy] using hctx
      subst hn
      revert hmem
      by_cases hf : (factory_count_tokens enc acpt "test" name).2 <;>
        simp [generate_warnings, hf]
      exact fun hmem => high_ne_approx p l name hmem

/-- Witness for C5: the high-context warning is present at 95.0%
utilization against the 1000-token limit, a concrete successful
estimate carries exactly the generated warnings, and with the context
limit absent no high-context warning appears. -/
theorem claim_c5_witness :
    high_context_warning (utilization_pct 700 250 1000) 1000 ∈
      generate_warnings enc_len 4 700 250 (some 1000) "cl100k_base" ∧
    resp0.warnings = generate_warnings enc_len 4 resp0.input_tokens
      resp0.output_tokens resp0.context_limit resp0.tokenizer.name ∧
    high_context_warning 95 1000 ∉
      generate_warnings enc_len 4 700 250 none "llama_approx_bpe" := by
  have h := claim_c5 enc_len 4 700 250 1000 "cl100k_base" [("m", cfg0)] req0 resp0
  have h2 := claim_c5 enc_len 4 700 250 1000 "llama_approx_bpe" [("m", cfg0)]
    req0 resp0
  exact ⟨(h.1 (by decide)).mpr (by rw [utilization_pct]; norm_num),
    h.2.2.2.1 estimate0,
    h2.2.2.2.2.2.2.2.2 none rfl 95 1000⟩

/-- Claim C3: with a RAG sub-request whose embedding-token count is
positive, the embedding cost is `(embeddingTokens/1000) ×` the input rate
of the first entry, in table iteration order, whose kind is `embedding`
and whose vendor equals the primary entry's vendor; if no such entry
exists, the RAG sub-request is absent, or the embedding-token count is
not positive, the embedding cost is 0. -/
theorem claim_c3 (table : PricingTable) (i o : ℕ) (cfg : PricingConfig)
    (rc : RAGConfig) (em : String × PricingConfig)
    (pre post : List (String × PricingConfig)) :
    (0 < rc.embedding_tokens →
      table = pre ++ em :: post →
      em.2.kind = "embedding" → em.2.vendor = cfg.vendor →
      (∀ x ∈ pre, ¬(x.2.kind = "embedding" ∧ x.2.vendor = cfg.vendor)) →
      (calculate_costs table i o cfg (some rc)).embedding_cost =
        ((rc.embedding_tokens : ℚ) / 1000) * em.2.input_per_1k) ∧
    (0 < rc.embedding_tokens →
      (∀ x ∈ table, ¬(x.2.kind = "embedding" ∧ x.2.vendor = cfg.vendor)) →
      (calculate_costs table i o cfg (some rc)).embedding_cost = 0) ∧
    (rc.embedding_tokens ≤ 0 →
      (calculate_costs table i o cfg (some rc)).embedding_cost = 0) ∧
    ((calculate_costs table i o cfg none).embedding_cost = 0) := by
  refine ⟨fun het htab hek hev hpre => ?_, fun het hnone => ?_, fun het => ?_, rfl⟩
  · have hf : table.find?
        (fun p => p.2.kind = "embedding" && p.2.vendor = cfg.vendor) = some em := by
      refine List.find?_eq_some.mpr ⟨by simp [hek, hev], pre, post, htab, ?_⟩
      intro a ha
      have h := hpre a ha
      by_cases h1 : a.2.kind = "embedding" <;> by_cases h2 : a.2.vendor = cfg.vendor
      · exact absurd ⟨h1, h2⟩ h
      · simp [h1, h2]
      · simp [h1, h2]
      · simp [h1, h2]
    have hfe : find_embedding table cfg.vendor = some em.2 := by
      rw [find_embedding, hf]
      rfl
    simp [calculate_costs, hfe, het]
  · have hf : table.find?
        (fun p => p.2.kind = "embedding" && p.2.vendor = cfg.vendor) = none := by
      refine List.find?_eq_none.mpr fun x hx => ?_
      have h := hnone x hx
      by_cases h1 : x.2.kind = "embedding" <;> by_cases h2 : x.2.vendor = cfg.vendor
      · exact absurd ⟨h1, h2⟩ h
      · simp [h1, h2]
      · simp [h1, h2]
      · simp [h1, h2]
    have hfe : find_embedding table cfg.vendor = none := by
      rw [find_embedding, hf]
      rfl
    simp [calculate_costs, hfe, het]
  · simp [calculate_costs, not_lt.mpr het]

/-- An embedding-kind pricing entry used in the C3 witness. -/
def cfg_emb : PricingConfig := ⟨"openai", none, 2/100, none, "cl100k_base", "embedding"⟩

/-- Witness for C3: in a table whose first entry is a chat entry and whose
second is the vendor's embedding entry with input rate 0.02, a RAG
sub-request with 1000 embedding tokens costs 0.02, matching the spec's
example. -/
theorem claim_c3_witness :
    (calculate_costs [("chat", cfg0), ("emb", cfg_emb)] 0 0 cfg0
      (some ⟨1000, 0, 0⟩)).embedding_cost = 2/100 := by
  have h := (claim_c3 [("chat", cfg0), ("emb", cfg_emb)] 0 0 cfg0 ⟨1000, 0, 0⟩
    ("emb", cfg_emb) [("chat", cfg0)] []).1 (by decide) rfl rfl rfl
    (by decide)
  rw [h]
  norm_num [cfg_emb]

lemma validate_record_context (r : RawPricingRecord) (c : Option ℤ) :
    validate_record { r with context := c } =
      (validate_record r).map (fun cfg => { cfg with context := c }) := by
  rcases r with ⟨v, cc, i, o, tk, kd⟩
  rcases v with - | v <;> rcases i with - | i <;> rcases tk with - | tk <;>
    rcases kd with - | kd <;> try rfl
  simp only [validate_record]
  by_cases hi : i < 0
  · simp [hi, Except.map]
  · rcases o with - | o
    · simp [hi, Except.map]
    · by_cases ho : o < 0 <;> simp [hi, ho, Except.map]

lemma vas_error : ∀ data : List (String × RawPricingRecord),
    (∃ p ∈ data, ∃ e, validate_record p.2 = .error e) →
    ∃ n e, validate_and_store data =
        .error ("Invalid pricing config for " ++ n ++ ": " ++ e) ∧
      ∃ r, (n, r) ∈ data ∧ validate_record r = .error e := by
  intro data
  induction data with
  | nil => rintro ⟨p, hp, -⟩; cases hp
  | cons a rest ih =>
    rintro ⟨p, hp, e, he⟩
    cases hva : validate_record a.2 with
    | error e1 =>
      exact ⟨a.1, e1, by simp [validate_and_store, hva], a.2, by simp, hva⟩
    | ok cfg =>
      have hrest : ∃ p ∈ rest, ∃ e, validate_record p.2 = .error e := by
        rcases List.mem_cons.mp hp with rfl | htail
        · rw [hva] at he
          exact Except.noConfusion he
        · exact ⟨p, htail, e, he⟩
      obtain ⟨n, e1, hvs, r, hmem, hr⟩ := ih hrest
      exact ⟨n, e1, by simp [validate_and_store, hva, hvs], r,
        List.mem_cons_of_mem a hmem, hr⟩

lemma vas_ok : ∀ data : List (String × RawPricingRecord),
    (∀ p ∈ data, ∃ cfg, validate_record p.2 = .ok cfg) →
    ∃ t, validate_and_store data = .ok t ∧
      List.Forall₂ (fun p q => p.1 = q.1 ∧ validate_record p.2 = .ok q.2) data t := by
  intro data
  induction data with
  | nil => exact fun _ => ⟨[], rfl, List.Forall₂.nil⟩
  | cons a rest ih =>
    intro h
    obtain ⟨cfg, hcfg⟩ := h a (by simp)
    obtain ⟨t, ht, hf⟩ := ih fun p hp => h p (List.mem_cons_of_mem a hp)
    exact ⟨(a.1, cfg) :: t, by simp [validate_and_store, hcfg, ht],
      List.Forall₂.cons ⟨rfl, hcfg⟩ hf⟩

lemma forall2_fst {data : List (String × RawPricingRecord)} {t : PricingTable}
    (h : List.Forall₂ (fun p q => p.1 = q.1 ∧ validate_record p.2 = .ok q.2) data t) :
    t.map (fun q => q.1) = data.map (fun p => p.1) := by
  induction h with
  | nil => rfl
  | cons h1 _ ih => simp [ih, h1.1]

/-- Claim C6: if any record of a pricing-source mapping is missing a
required field or has a negative rate, the entire load fails with a
message naming an invalid model identifier and the previously stored
table is unchanged; if every record validates, the stored table maps
exactly the given model identifiers, in order, to their validated
entries. -/
theorem claim_c6 (old : PricingTable) (data : List (String × RawPricingRecord)) :
    ((∃ p ∈ data, ∃ e, validate_record p.2 = .error e) →
      ∃ n e, validate_and_store data =
          .error ("Invalid pricing config for " ++ n ++ ": " ++ e) ∧
        (∃ r, (n, r) ∈ data ∧ validate_record r = .error e) ∧
        (load_pricing_step old data).1 = old ∧
        (load_pricing_step old data).2 ≠ none) ∧
    ((∀ p ∈ data, ∃ cfg, validate_record p.2 = .ok cfg) →
      ∃ t, validate_and_store data = .ok t ∧
        List.Forall₂ (fun p q => p.1 = q.1 ∧ validate_record p.2 = .ok q.2) data t ∧
        t.map (fun q => q.1) = data.map (fun p => p.1) ∧
        load_pricing_step old data = (t, none)) := by
  constructor
  · intro h
    obtain ⟨n, e, hvs, r, hmem, hr⟩ := vas_error data h
    exact ⟨n, e, hvs, ⟨r, hmem, hr⟩, by simp [load_pricing_step, hvs],
      by simp [load_pricing_step, hvs]⟩
  · intro h
    obtain ⟨t, ht, hf⟩ := vas_ok data h
    exact ⟨t, ht, hf, forall2_fst hf, by simp [load_pricing_step, ht]⟩

/-- A record with a negative input rate, used in the C6 witness. -/
def raw_bad : RawPricingRecord :=
  ⟨some "openai", none, some (-(15/100)), none, some "o200k_base", some "chat"⟩

/-- A valid record, used in the C6 and C10 witnesses. -/
def raw_ok : RawPricingRecord :=
  ⟨some "openai", none, some 0, none, some "cl100k_base", some "chat"⟩

/-- Witness for C6: a load containing a negative-rate record leaves the
prior table in place and reports an error, while a fully valid load
stores exactly the given model identifier. -/
theorem claim_c6_witness :
    (load_pricing_step [("m", cfg0)] [("bad", raw_bad)]).1 = [("m", cfg0)] ∧
    ∃ t, load_pricing_step [] [("g", raw_ok)] = (t, none) ∧
      t.map (fun q => q.1) = ["g"] := by
  constructor
  · obtain ⟨n, e, hvs, hex, hold, hne⟩ :=
      (claim_c6 [("m", cfg0)] [("bad", raw_bad)]).1
        ⟨("bad", raw_bad), by simp, "Cost must be non-negative",
          by norm_num [validate_record, raw_bad]⟩
    exact hold
  · obtain ⟨t, ht, hf, hmap, hstep⟩ :=
      (claim_c6 [] [("g", raw_ok)]).2
        (by
          rintro p hp
          simp only [List.mem_singleton] at hp
          subst hp
          exact ⟨⟨"openai", none, 0, none, "cl100k_base", "chat"⟩,
            by simp [validate_record, raw_ok]⟩)
    exact ⟨t, hstep, by rw [hmap]; rfl⟩

/-- A second-vendor pricing entry used for the refresh scenario. -/
def cfg_m2 : PricingConfig :=
  ⟨"anthropic", none, 1/100, none, "anthropic_approx_bpe", "chat"⟩

/-- The raw record validating to `cfg_m2`. -/
def raw_m2 : RawPricingRecord :=
  ⟨some "anthropic", none, some (1/100), none, some "anthropic_approx_bpe",
    some "chat"⟩

/-- A request for model `m2`. -/
def req_m2 : EstimateRequest := ⟨"m2", none, none, none, 0, none⟩

/-- Claim C7: the code keeps serving estimates from the startup table
after a successful refresh.  The refresh operation never changes the
table consumed by the estimation service (first conjunct), and in a
concrete run where startup loads only `m1` and a successful refresh
loads only `m2`, the loader's table holds `m2` while an estimate for
`m2` still fails with `Unknown model` — contradicting the claim that
estimates consult the newly loaded entries. -/
theorem claim_c7 :
    (∀ (s : AppState) (data : List (String × RawPricingRecord)),
      (refresh_pricing s data).service_pricing_configs =
        s.service_pricing_configs) ∧
    ((refresh_pricing (startup [("m1", cfg0)]) [("m2", raw_m2)]).loader_pricing_data =
      [("m2", cfg_m2)]) ∧
    (table_get (refresh_pricing (startup [("m1", cfg0)])
        [("m2", raw_m2)]).loader_pricing_data "m2" = some cfg_m2) ∧
    (service_estimate enc_len 4
        (refresh_pricing (startup [("m1", cfg0)]) [("m2", raw_m2)]) req_m2 =
      .error "Unknown model: m2") := by
  have hvas : validate_and_store [("m2", raw_m2)] = .ok [("m2", cfg_m2)] := by
    norm_num [validate_and_store, validate_record, raw_m2, cfg_m2]
  have hrefresh : refresh_pricing (startup [("m1", cfg0)]) [("m2", raw_m2)] =
      ⟨[("m2", cfg_m2)], [("m1", cfg0)]⟩ := by
    rw [refresh_pricing, hvas]
    rfl
  refine ⟨fun s data => ?_, ?_, ?_, ?_⟩
  · rw [refresh_pricing]
    cases validate_and_store data <;> rfl
  · rw [hrefresh]
  · rw [hrefresh]
    simp [table_get, List.find?]
  · rw [hrefresh, service_estimate]
    exact estimate_unknown enc_len 4 [("m1", cfg0)] req_m2
      (by simp [table_get, List.find?, req_m2])

lemma table_get_mem {table : PricingTable} {m : String} {cfg : PricingConfig}
    (h : table_get table m = some cfg) : ∃ p ∈ table, p.2 = cfg := by
  rw [table_get] at h
  obtain ⟨p, hp, hp2⟩ := Option.map_eq_some'.mp h
  exact ⟨p, List.mem_of_find?_eq_some hp, hp2⟩

lemma find_embedding_mem {table : PricingTable} {v : String} {em : PricingConfig}
    (h : find_embedding table v = some em) : ∃ p ∈ table, p.2 = em := by
  rw [find_embedding] at h
  obtain ⟨p, hp, hp2⟩ := Option.map_eq_some'.mp h
  exact ⟨p, List.mem_of_find?_eq_some hp, hp2⟩

lemma calculate_costs_nonneg (table : PricingTable) (i o : ℕ)
    (cfg : PricingConfig) (rag : Option RAGConfig)
    (hin : 0 ≤ cfg.input_per_1k)
    (hout : ∀ r, cfg.output_per_1k = some r → 0 ≤ r)
    (hemb : ∀ p ∈ table, 0 ≤ p.2.input_per_1k)
    (hfee : ∀ rc, rag = some rc → 0 ≤ rc.vector_read_fee_per_1k) :
    0 ≤ (calculate_costs table i o cfg rag).model_input_cost ∧
    0 ≤ (calculate_costs table i o cfg rag).model_output_cost ∧
    0 ≤ (calculate_costs table i o cfg rag).embedding_cost ∧
    0 ≤ (calculate_costs table i o cfg rag).vector_io_cost := by
  refine ⟨mul_nonneg (by positivity) hin, ?_, ?_, ?_⟩
  · cases ho : cfg.output_per_1k with
    | none => simp [calculate_costs, ho]
    | some r =>
      by_cases hr : r = 0
      · simp [calculate_costs, ho, hr]
      · simp only [calculate_costs, ho, hr]
        exact le_of_eq_of_le (by simp [hr]) (mul_nonneg (by positivity) (hout r ho))
  · cases rag with
    | none => simp [calculate_costs]
    | some rc =>
      by_cases het : 0 < rc.embedding_tokens
      · cases hfe : find_embedding table cfg.vendor with
        | none => simp [calculate_costs, het, hfe]
        | some em =>
          obtain ⟨p, hpmem, hp2⟩ := find_embedding_mem hfe
          have hrate : 0 ≤ em.input_per_1k := hp2 ▸ hemb p hpmem
          simp only [calculate_costs, het, hfe, if_true]
          exact mul_nonneg
            (div_nonneg (by exact_mod_cast le_of_lt het) (by norm_num)) hrate
      · simp [calculate_costs, het]
  · cases rag with
    | none => simp [calculate_costs]
    | some rc =>
      by_cases hn : 0 < rc.num_vectors_read
      · simp only [calculate_costs, hn, if_true]
        exact mul_nonneg (by exact_mod_cast le_of_lt hn) (hfee rc rfl)
      · simp [calculate_costs, hn]

/-- A request carrying a RAG sub-request with a negative per-vector fee;
every pydantic validator accepts it, since `RAGConfig` declares no
constraint on its fields. -/
def req_c8 : EstimateRequest := ⟨"m", none, none, none, 0, some ⟨0, 1, -(1/100)⟩⟩

/-- Counterexample to C8 as stated: a request accepted by the public
request validation (model present in the table, non-negative
expected-output tokens) whose RAG per-vector fee is negative produces a
negative vector I/O cost component. -/
theorem claim_c8_counterexample :
    ∃ resp, estimate enc_len 4 [("m", cfg0)] req_c8 = .ok resp ∧
      resp.breakdown.vector_io_cost < 0 := by
  refine ⟨⟨"m", ⟨"cl100k_base", false⟩, 0, 0, none, none, -(1/100),
    ⟨0, 0, 0, -(1/100)⟩, []⟩, ?_, by norm_num⟩
  simp [estimate, req_c8, cfg0, table_get, List.find?, count_input_tokens,
    count_field, calculate_costs, find_embedding, generate_warnings,
    factory_count_tokens, create_cl100k, strategy_count, openai_count_tokens]

/-- Claim C8 (amended): for every estimation request whose model is
present in the pricing table, provided the table's entries carry
non-negative rates (as load validation guarantees) and the RAG
sub-request's per-vector fee — which request validation does not
constrain — is non-negative, all four components of the returned cost
breakdown are non-negative. -/
theorem claim_c8 (enc : Enc) (acpt : ℚ) (table : PricingTable)
    (req : EstimateRequest) (resp : EstimateResponse)
    (hrates : ∀ p ∈ table, 0 ≤ p.2.input_per_1k)
    (hout : ∀ p ∈ table, ∀ r, p.2.output_per_1k = some r → 0 ≤ r)
    (hfee : ∀ rc, req.rag = some rc → 0 ≤ rc.vector_read_fee_per_1k)
    (hok : estimate enc acpt table req = .ok resp) :
    0 ≤ resp.breakdown.model_input_cost ∧
    0 ≤ resp.breakdown.model_output_cost ∧
    0 ≤ resp.breakdown.embedding_cost ∧
    0 ≤ resp.breakdown.vector_io_cost := by
  cases htg : table_get table req.model with
  | none =>
    rw [estimate_unknown enc acpt table req htg] at hok
    exact Except.noConfusion hok
  | some cfg =>
    obtain ⟨p, hpmem, hp2⟩ := table_get_mem htg
    simp only [estimate, htg] at hok
    injection hok with hok
    rw [← hok]
    exact calculate_costs_nonneg table _ req.expected_output_tokens cfg req.rag
      (hp2 ▸ hrates p hpmem) (hp2 ▸ hout p hpmem) hrates hfee

/-- Witness for C8 (amended): the four components are non-negative on a
concrete request against a concrete validated table. -/
theorem claim_c8_witness :
    0 ≤ resp0.breakdown.model_input_cost ∧
    0 ≤ resp0.breakdown.model_output_cost ∧
    0 ≤ resp0.breakdown.embedding_cost ∧
    0 ≤ resp0.breakdown.vector_io_cost :=
  claim_c8 enc_len 4 [("m", cfg0)] req0 resp0
    (by simp [cfg0]) (by simp [cfg0]) (by simp [req0]) estimate0

/-- A pricing entry whose optional context field is the integer 0. -/
def cfg_ctx0 : PricingConfig := ⟨"openai", some 0, 0, none, "cl100k_base", "chat"⟩

/-- Claim C10: load validation does not constrain the optional context
field (validating a record still succeeds after setting its context to
0), and when an entry's context is 0 the estimate treats the limit as
absent: the estimate succeeds, the context-utilization percentage is
omitted, and no high-context warning can appear. -/
theorem claim_c10 (r : RawPricingRecord) (cfg : PricingConfig) (enc : Enc)
    (acpt : ℚ) (table : PricingTable) (req : EstimateRequest)
    (cfgz : PricingConfig) :
    (validate_record r = .ok cfg →
      validate_record { r with context := some 0 } =
        .ok { cfg with context := some 0 }) ∧
    (table_get table req.model = some cfgz → cfgz.context = some 0 →
      ∃ resp, estimate enc acpt table req = .ok resp ∧
        resp.context_utilization_pct = none ∧
        ∀ p l, high_context_warning p l ∉ resp.warnings) := by
  constructor
  · intro h
    rw [validate_record_context, h]
    rfl
  · intro htg hctx
    simp only [estimate, htg]
    refine ⟨_, rfl, by simp [hctx], fun p l hmem => ?_⟩
    rw [hctx] at hmem
    rw [generate_warnings_split] at hmem
    rw [if_neg (by simp [utilization_pct])] at hmem
    by_cases hf : (factory_count_tokens enc acpt "test" cfgz.tokenizer).2 <;>
      simp [hf] at hmem
    exact high_ne_approx p l cfgz.tokenizer hmem

/-- Witness for C10: a concrete record still validates with context 0,
and a concrete estimate against an entry with context 0 omits the
utilization percentage and carries no high-context warning. -/
theorem claim_c10_witness :
    (validate_record { raw_ok with context := some 0 } =
      .ok { cfg0 with context := some 0 }) ∧
    ∃ resp, estimate enc_len 4 [("m", cfg_ctx0)] req0 = .ok resp ∧
      resp.context_utilization_pct = none ∧
      ∀ p l, high_context_warning p l ∉ resp.warnings := by
  have h := claim_c10 raw_ok cfg0 enc_len 4 [("m", cfg_ctx0)] req0 cfg_ctx0
  exact ⟨h.1 (by simp [validate_record, raw_ok, cfg0]),
    h.2 (by simp [table_get, List.find?, req0]) rfl⟩

end TokenCalc
